import Mathlib

/-!
Verification of the le-responder certificate-lifecycle daemon.

Go strings are modelled as byte lists (`GoString := List Nat`), since Go
strings are arbitrary byte sequences and conversions `[]byte(s)` /
`string(b)` are byte-identities.  ASCII string literals are injected with
`goStr`.  Pure functions from the source are translated directly; the Go
standard library (`encoding/pem`, `crypto/x509`, the ACME client) and the
CredHub store are external collaborators modelled as explicit environments
(records of functions), with the facts the claims need stated as
hypotheses.
-/

namespace LeResponder

/-- Go strings as byte sequences. -/
abbrev GoString := List Nat

/-- Inject an ASCII Lean string literal as a Go byte string. -/
def goStr (s : String) : GoString := s.toList.map Char.toNat

/-! ## Hex encoding (Go `encoding/hex`), used by metrics.go -/

/-- Hex digit for a nibble, lowercase as in Go `encoding/hex`. -/
def hexDigit (n : Nat) : Nat := if n < 10 then 48 + n else 87 + n

/-- `hex.EncodeToString`: two lowercase hex digits per byte. -/
def hexEncode : List Nat → List Nat
  | [] => []
  | b :: bs => hexDigit (b / 16) :: hexDigit (b % 16) :: hexEncode bs

/-- Value of one hex digit character, accepting 0-9, a-f, A-F as Go does. -/
def hexDigitVal (c : Nat) : Option Nat :=
  if 48 ≤ c ∧ c ≤ 57 then some (c - 48)
  else if 97 ≤ c ∧ c ≤ 102 then some (c - 87)
  else if 65 ≤ c ∧ c ≤ 70 then some (c - 55)
  else none

/-- `hex.DecodeString`: fails on odd length or a non-hex character. -/
def hexDecode : List Nat → Option (List Nat)
  | [] => some []
  | [_] => none
  | c1 :: c2 :: rest =>
    match hexDigitVal c1, hexDigitVal c2, hexDecode rest with
    | some hi, some lo, some tail => some ((hi * 16 + lo) :: tail)
    | _, _, _ => none

/-- The fixed path head `"/certs/"` from metrics.go. -/
def certsRoot : GoString := goStr "/certs/"

/-- metrics.go `pathFromHost`: prefix plus hex encoding of the hostname bytes. -/
def pathFromHost (hostname : GoString) : GoString :=
  certsRoot ++ hexEncode hostname

/-- metrics.go `hostFromPath`: empty result on short path or hex decode error. -/
def hostFromPath (path : GoString) : GoString :=
  if path.length < certsRoot.length then []
  else
    match hexDecode (path.drop certsRoot.length) with
    | none => []
    | some b => b

theorem hexDigitVal_hexDigit (n : Nat) (h : n < 16) :
    hexDigitVal (hexDigit n) = some n := by
  unfold hexDigit hexDigitVal
  by_cases h10 : n < 10
  · simp only [if_pos h10]
    rw [if_pos (by omega)]
    congr 1
    omega
  · simp only [if_neg h10]
    rw [if_neg (by omega), if_pos (by omega)]
    congr 1
    omega

theorem hexDecode_hexEncode (bs : List Nat) (h : ∀ b ∈ bs, b < 256) :
    hexDecode (hexEncode bs) = some bs := by
  induction bs with
  | nil => rfl
  | cons b rest ih =>
    have hb : b < 256 := h b (List.mem_cons_self b rest)
    have hrest : hexDecode (hexEncode rest) = some rest :=
      ih (fun x hx => h x (List.mem_cons_of_mem b hx))
    show hexDecode (hexDigit (b / 16) :: hexDigit (b % 16) :: hexEncode rest) = some (b :: rest)
    unfold hexDecode
    rw [hexDigitVal_hexDigit (b / 16) (by omega),
        hexDigitVal_hexDigit (b % 16) (by omega), hrest]
    have : b / 16 * 16 + b % 16 = b := by omega
    simp [this]

/-- C6: for every hostname (any byte string, so in particular any UTF-8
string), decoding the encoded path yields the hostname back exactly:
`hostFromPath (pathFromHost h) = h`. -/
theorem hostFromPath_pathFromHost (h : GoString) (hb : ∀ b ∈ h, b < 256) :
    hostFromPath (pathFromHost h) = h := by
  unfold hostFromPath pathFromHost
  have hlen : (certsRoot ++ hexEncode h).length = certsRoot.length + (hexEncode h).length := by
    simp
  rw [if_neg (by omega), List.drop_left]
  simp [hexDecode_hexEncode h hb]

/-- C6 witness: round trip at a concrete hostname. -/
theorem hostFromPath_pathFromHost_witness :
    (∀ b ∈ goStr "system.example.gov.au", b < 256) ∧
      hostFromPath (pathFromHost (goStr "system.example.gov.au")) = goStr "system.example.gov.au" :=
  ⟨by decide, hostFromPath_pathFromHost (goStr "system.example.gov.au") (by decide)⟩

/-! ## Data model (server_responder.go storage file and packaging acme file) -/

/-- Manual-challenge state stored on a record.  `renewCertIfNeeded` and the
admin handlers only test it for nil, so only enough structure is kept to be a
value. -/
structure acmeChallenge where
  Message : GoString
deriving DecidableEq

/-- The stored certificate record (`credhubCert`). -/
structure credhubCert where
  Source : GoString
  Typ : GoString
  CA : GoString
  Certificate : GoString
  PrivateKey : GoString
  Challenge : Option acmeChallenge
deriving DecidableEq

/-- Error kinds of the CredHub store, as distinguished by
`credhub.IsNotFoundError` / `credhub.IsCommsRelatedError` in daemon.go. -/
inductive StoreErr where
  | notFound
  | comms
  | other
deriving DecidableEq

/-- `credhub.IsNotFoundError`. -/
def IsNotFoundError : StoreErr → Bool
  | .notFound => true
  | _ => false

/-! ## pem / x509 environment

`encoding/pem` and `crypto/x509` are Go standard library; the daemon only
observes `pem.Decode` (block or nil, block type, header count) and
`x509.ParseCertificate` (error or the certificate's `NotAfter`).  They are
modelled as an explicit environment together with the evaluation time
`time.Now()`, in nanoseconds as Go durations are. -/

/-- A decoded PEM block as observed by daemon.go: type string, header count,
and payload bytes. -/
structure PemBlock where
  Typ : GoString
  HeadersLen : Nat
  Bytes : GoString
deriving DecidableEq

/-- The fields of a parsed x509 certificate observed by daemon.go. -/
structure ParsedCert where
  NotAfter : Int
deriving DecidableEq

/-- Environment supplying `pem.Decode`, `x509.ParseCertificate` and
`time.Now()` to the decision function. -/
structure X509Env where
  pemDecode : GoString → Option PemBlock
  parseCertificate : GoString → Option ParsedCert
  now : Int

/-- Nanoseconds in `time.Hour`. -/
def nsPerHour : Int := 3600 * 1000000000

/-! ## Renewal engine (daemon.go) -/

/-- The daemon configuration fields read by the embedded functions. -/
structure daemonConf where
  DaysBefore : Int
  BootstrapSource : GoString
  ourHN : GoString
  fixedHosts : List GoString

/-- daemon.go `Init`: the fixed-host list, bootstrap sentinel first. -/
def initFixedHosts (ourHostname : GoString) : List GoString :=
  [goStr "proxy-bootstrap", ourHostname]

/-- The distinct error returns of `renewCertIfNeeded`, one constructor per
`return` of an error in the source. -/
inductive RenewErr where
  | storage (e : StoreErr)
  | challengeNotEmpty
  | noCertInPem
  | invalidCert
  | parseError
  | alreadyExpired
deriving DecidableEq

/-- Outcome of `renewCertIfNeeded` up to the point where it either returns
an error, returns nil without acting (`needNew = false`), or calls
`RenewCertNow hostname sourceToUse` (the only way a certificate source is
invoked from the scan). -/
inductive RenewDecision where
  | err (e : RenewErr)
  | renew (sourceToUse : GoString)
  | noAction
deriving DecidableEq

/-- daemon.go `renewCertIfNeeded`, with the store's `LoadPath` result for
`pathFromHost hostname` passed in as `load`.  Mirrors the source's control
flow exactly: NotFound means a new certificate from the bootstrap source;
a record with a pending challenge, an undecodable or invalid PEM block, an
unparsable certificate, or an already-expired certificate is an error; a
certificate expiring within `DaysBefore` days renews from the record's own
source; otherwise nothing happens. -/
def renewCertIfNeeded (dc : daemonConf) (env : X509Env)
    (load : Except StoreErr credhubCert) : RenewDecision :=
  match load with
  | .error e =>
    if IsNotFoundError e then
      .renew dc.BootstrapSource
    else
      .err (.storage e)
  | .ok chc =>
    let sourceToUse := chc.Source
    if chc.Challenge.isSome then
      .err .challengeNotEmpty
    else
      match env.pemDecode chc.Certificate with
      | none => .err .noCertInPem
      | some block =>
        if block.Typ ≠ goStr "CERTIFICATE" ∨ block.HeadersLen ≠ 0 then
          .err .invalidCert
        else
          match env.parseCertificate block.Bytes with
          | none => .err .parseError
          | some pc =>
            if pc.NotAfter < env.now then
              .err .alreadyExpired
            else if pc.NotAfter < env.now + 24 * nsPerHour * dc.DaysBefore then
              .renew sourceToUse
            else
              .noAction

/-! ## Concrete instances for witnesses and counterexamples -/

/-- A concrete pem/x509 environment: any non-empty payload decodes as a
headerless CERTIFICATE block (an empty input holds no PEM block, exactly as
`pem.Decode` finds no block in empty data), and parsing yields a certificate
expiring at `notAfter`. -/
def sampleEnv (now notAfter : Int) : X509Env :=
  { pemDecode := fun d =>
      if d = [] then none
      else some { Typ := goStr "CERTIFICATE", HeadersLen := 0, Bytes := d }
    parseCertificate := fun _ => some { NotAfter := notAfter }
    now := now }

/-- A concrete stored record. -/
def sampleRecord (cert : GoString) (chal : Option acmeChallenge) : credhubCert :=
  { Source := goStr "acme-prod"
    Typ := goStr "user"
    CA := []
    Certificate := cert
    PrivateKey := []
    Challenge := chal }

/-- A concrete daemon configuration with `DaysBefore = 32`. -/
def sampleConf : daemonConf :=
  { DaysBefore := 32
    BootstrapSource := goStr "acme-prod"
    ourHN := goStr "le-responder.example.gov.au"
    fixedHosts := initFixedHosts (goStr "le-responder.example.gov.au") }

/-- Nanoseconds in one day. -/
def nsPerDay : Int := 24 * nsPerHour

/-! ## Renewal-necessity claims -/

/-- C1 counterexample: a record that exists, has no pending challenge and
whose certificate field is the empty string is NOT renewed: `pem.Decode` of
empty data finds no block, so `renewCertIfNeeded` returns the
"no cert found in pem" error instead of proceeding to issuance with the
record's source. -/
theorem renew_empty_certificate_cx :
    (sampleRecord [] none).Certificate = [] ∧
    (sampleRecord [] none).Challenge = none ∧
    (sampleEnv 0 0).pemDecode [] = none ∧
    renewCertIfNeeded sampleConf (sampleEnv 0 0) (.ok (sampleRecord [] none))
      = .err .noCertInPem ∧
    renewCertIfNeeded sampleConf (sampleEnv 0 0) (.ok (sampleRecord [] none))
      ≠ .renew (sampleRecord [] none).Source := by
  refine ⟨rfl, rfl, rfl, by decide, by decide⟩

/-- C1 amended: for every record with no pending challenge and an empty
certificate field, and every decoder that (like Go's `pem.Decode`) finds no
block in empty data, `renewCertIfNeeded` returns the "no cert found in pem"
error — it never proceeds to issuance for a not-yet-issued record. -/
theorem renew_empty_certificate_errors (dc : daemonConf) (env : X509Env)
    (chc : credhubCert) (hch : chc.Challenge = none) (hc : chc.Certificate = [])
    (hpem : env.pemDecode [] = none) :
    renewCertIfNeeded dc env (.ok chc) = .err .noCertInPem := by
  simp [renewCertIfNeeded, hch, hc, hpem]

/-- C1 amended witness. -/
theorem renew_empty_certificate_errors_witness :
    renewCertIfNeeded sampleConf (sampleEnv 0 0) (.ok (sampleRecord [] none))
      = .err .noCertInPem :=
  renew_empty_certificate_errors sampleConf (sampleEnv 0 0) (sampleRecord [] none)
    rfl rfl rfl

/-- C3: a record whose pending challenge is non-nil always makes
`renewCertIfNeeded` return the "challenge not empty" error, before any
certificate or expiry information is even consulted — so automatic issuance
never happens, regardless of how soon the certificate expires. -/
theorem renew_pending_challenge_blocks (dc : daemonConf) (env : X509Env)
    (chc : credhubCert) (h : chc.Challenge.isSome) :
    renewCertIfNeeded dc env (.ok chc) = .err .challengeNotEmpty := by
  simp [renewCertIfNeeded, h]

/-- C3 witness: a record with a pending challenge whose certificate would
expire in 1 day (well inside the `DaysBefore = 32` window) is still blocked. -/
theorem renew_pending_challenge_blocks_witness :
    nsPerDay < 0 + 24 * nsPerHour * sampleConf.DaysBefore ∧
    renewCertIfNeeded sampleConf (sampleEnv 0 nsPerDay)
      (.ok (sampleRecord (goStr "CERTDATA") (some { Message := goStr "do DNS" })))
      = .err .challengeNotEmpty :=
  ⟨by decide,
   renew_pending_challenge_blocks sampleConf (sampleEnv 0 nsPerDay)
     (sampleRecord (goStr "CERTDATA") (some { Message := goStr "do DNS" })) rfl⟩

/-- C4: a record with no pending challenge whose certificate parses and has
`NotAfter` strictly before `time.Now()` makes `renewCertIfNeeded` return the
"cert already expired" error: an expired certificate is never auto-renewed
and no certificate source is invoked (only the `.renew` outcome invokes a
source). -/
theorem renew_expired_cert_blocks (dc : daemonConf) (env : X509Env)
    (chc : credhubCert) (block : PemBlock) (pc : ParsedCert)
    (hch : chc.Challenge = none)
    (hpem : env.pemDecode chc.Certificate = some block)
    (htyp : block.Typ = goStr "CERTIFICATE") (hhdr : block.HeadersLen = 0)
    (hparse : env.parseCertificate block.Bytes = some pc)
    (hexp : pc.NotAfter < env.now) :
    renewCertIfNeeded dc env (.ok chc) = .err .alreadyExpired := by
  simp [renewCertIfNeeded, hch, hpem, htyp, hhdr, hparse, hexp]

/-- C4 witness: certificate expired one day ago. -/
theorem renew_expired_cert_blocks_witness :
    renewCertIfNeeded sampleConf (sampleEnv 0 (-nsPerDay))
      (.ok (sampleRecord (goStr "CERTDATA") none))
      = .err .alreadyExpired :=
  renew_expired_cert_blocks sampleConf (sampleEnv 0 (-nsPerDay))
    (sampleRecord (goStr "CERTDATA") none)
    { Typ := goStr "CERTIFICATE", HeadersLen := 0, Bytes := goStr "CERTDATA" }
    { NotAfter := -nsPerDay }
    rfl (by decide) rfl rfl rfl (by decide)

/-- C5: the renewal-necessity decision on unblocked inputs: (a) a NotFound
load resolves to "needs new" with the configured bootstrap source; (b) a
valid unexpired certificate expiring within `DaysBefore` days of now
resolves to "needs new" with the record's own source; (c) a certificate
expiring beyond the window resolves to "no action". -/
theorem renew_decision_cases (dc : daemonConf) (env : X509Env) :
    (renewCertIfNeeded dc env (.error .notFound) = .renew dc.BootstrapSource)
    ∧ (∀ chc block pc, chc.Challenge = none →
        env.pemDecode chc.Certificate = some block →
        block.Typ = goStr "CERTIFICATE" → block.HeadersLen = 0 →
        env.parseCertificate block.Bytes = some pc →
        env.now ≤ pc.NotAfter →
        pc.NotAfter < env.now + 24 * nsPerHour * dc.DaysBefore →
        renewCertIfNeeded dc env (.ok chc) = .renew chc.Source)
    ∧ (∀ chc block pc, chc.Challenge = none →
        env.pemDecode chc.Certificate = some block →
        block.Typ = goStr "CERTIFICATE" → block.HeadersLen = 0 →
        env.parseCertificate block.Bytes = some pc →
        0 ≤ dc.DaysBefore →
        env.now + 24 * nsPerHour * dc.DaysBefore ≤ pc.NotAfter →
        renewCertIfNeeded dc env (.ok chc) = .noAction) := by
  refine ⟨by simp [renewCertIfNeeded, IsNotFoundError], ?_, ?_⟩
  · intro chc block pc hch hpem htyp hhdr hparse hlo hhi
    have h1 : ¬ pc.NotAfter < env.now := by omega
    simp [renewCertIfNeeded, hch, hpem, htyp, hhdr, hparse, h1, hhi]
  · intro chc block pc hch hpem htyp hhdr hparse hdb hfar
    have hns : nsPerHour = 3600 * 1000000000 := rfl
    have h1 : ¬ pc.NotAfter < env.now := by
      rw [hns] at hfar
      nlinarith
    have h2 : ¬ pc.NotAfter < env.now + 24 * nsPerHour * dc.DaysBefore := by omega
    simp [renewCertIfNeeded, hch, hpem, htyp, hhdr, hparse, h1, h2]

/-- C5 witness: with `DaysBefore = 32`, a missing record is "needs new" from
the bootstrap source; a certificate expiring in 20 days is "needs new" from
the record's source; one expiring in 40 days is "no action". -/
theorem renew_decision_cases_witness :
    (renewCertIfNeeded sampleConf (sampleEnv 0 0) (.error .notFound)
      = .renew sampleConf.BootstrapSource)
    ∧ (renewCertIfNeeded sampleConf (sampleEnv 0 (20 * nsPerDay))
        (.ok (sampleRecord (goStr "CERTDATA") none))
        = .renew (sampleRecord (goStr "CERTDATA") none).Source)
    ∧ (renewCertIfNeeded sampleConf (sampleEnv 0 (40 * nsPerDay))
        (.ok (sampleRecord (goStr "CERTDATA") none))
        = .noAction) :=
  ⟨(renew_decision_cases sampleConf (sampleEnv 0 0)).1,
   (renew_decision_cases sampleConf (sampleEnv 0 (20 * nsPerDay))).2.1
     (sampleRecord (goStr "CERTDATA") none)
     { Typ := goStr "CERTIFICATE", HeadersLen := 0, Bytes := goStr "CERTDATA" }
     { NotAfter := 20 * nsPerDay }
     rfl (by decide) rfl rfl rfl (by decide) (by decide),
   (renew_decision_cases sampleConf (sampleEnv 0 (40 * nsPerDay))).2.2
     (sampleRecord (goStr "CERTDATA") none)
     { Typ := goStr "CERTIFICATE", HeadersLen := 0, Bytes := goStr "CERTDATA" }
     { NotAfter := 40 * nsPerDay }
     rfl (by decide) rfl rfl rfl (by decide) (by decide)⟩

/-! ## Fixed hosts and deletion (daemon.go) -/

/-- daemon.go `isFixedHost`: linear scan of the fixed-host list. -/
def isFixedHost (dc : daemonConf) (hostname : GoString) : Bool :=
  dc.fixedHosts.any (fun hn => hn = hostname)

/-- daemon.go `CanDelete`. -/
def CanDelete (dc : daemonConf) (hostname : GoString) : Bool :=
  !isFixedHost dc hostname

/-- C7: with the fixed-host list built by `Init` (the bootstrap sentinel
"proxy-bootstrap" followed by the daemon's own hostname), `CanDelete`
returns false exactly for those two hostnames and true for every other. -/
theorem canDelete_iff_not_fixed (dc : daemonConf) (o h : GoString)
    (hfix : dc.fixedHosts = initFixedHosts o) :
    CanDelete dc h = false ↔ (h = goStr "proxy-bootstrap" ∨ h = o) := by
  by_cases h1 : h = goStr "proxy-bootstrap"
  · subst h1
    simp [CanDelete, isFixedHost, hfix, initFixedHosts]
  · by_cases h2 : h = o
    · subst h2
      simp [CanDelete, isFixedHost, hfix, initFixedHosts]
    · have h1' : ¬ goStr "proxy-bootstrap" = h := fun hh => h1 hh.symm
      have h2' : ¬ o = h := fun hh => h2 hh.symm
      simp [CanDelete, isFixedHost, hfix, initFixedHosts, h1, h2, h1', h2']

/-- C7 witness: deleting either fixed host is rejected, deleting another
host is permitted. -/
theorem canDelete_iff_not_fixed_witness :
    (CanDelete sampleConf (goStr "proxy-bootstrap") = false) ∧
    (CanDelete sampleConf (goStr "le-responder.example.gov.au") = false) ∧
    (CanDelete sampleConf (goStr "app.example.gov.au") = true) :=
  ⟨(canDelete_iff_not_fixed sampleConf (goStr "le-responder.example.gov.au")
      (goStr "proxy-bootstrap") rfl).2 (Or.inl rfl),
   (canDelete_iff_not_fixed sampleConf (goStr "le-responder.example.gov.au")
      (goStr "le-responder.example.gov.au") rfl).2 (Or.inr rfl),
   by decide⟩

/-! ## ACME registration state (packaging acme source, `ensureRegistered`) -/

/-- State of the lazy one-time registration inside an ACME source. -/
structure AcmeRegState where
  acmeKnownRegistered : Bool
deriving DecidableEq

/-- `ensureRegistered`, with the outcome the CA would give to a registration
attempt passed as `registerResult`.  Returns whether a registration attempt
was made, and the new state.  Faithful to the source: if the flag is set,
return immediately; otherwise attempt registration, log and IGNORE any
error, and set the flag unconditionally ("no point re-doing each time"). -/
def ensureRegistered (registerResult : Except GoString Unit)
    (s : AcmeRegState) : Bool × AcmeRegState :=
  if s.acmeKnownRegistered then
    (false, s)
  else
    match registerResult with
    | .error _ => (true, { acmeKnownRegistered := true })
    | .ok _ => (true, { acmeKnownRegistered := true })

/-- C2 counterexample: after a FAILED registration attempt the
known-registered flag is already true, so the next call makes no attempt at
all — a failed attempt does suppress retries on later calls, contradicting
the claim that the flag becomes true only after a successful attempt. -/
theorem ensureRegistered_failed_attempt_cx :
    (ensureRegistered (.error (goStr "CA unreachable")) { acmeKnownRegistered := false })
      = (true, { acmeKnownRegistered := true }) ∧
    (ensureRegistered (.error (goStr "still down"))
        (ensureRegistered (.error (goStr "CA unreachable"))
          { acmeKnownRegistered := false }).2).1
      = false := by
  refine ⟨rfl, rfl⟩

/-- C2 amended: registration is attempted only on the first call per
process; the flag is set after that attempt regardless of its outcome, so
no later call (from AutoFetchCert, ManualStartChallenge or
CompleteChallenge, which all run `ensureRegistered` first) re-attempts
registration. -/
theorem ensureRegistered_once_only (r : Except GoString Unit) (s : AcmeRegState) :
    (s.acmeKnownRegistered = false →
      ensureRegistered r s = (true, { acmeKnownRegistered := true }))
    ∧ (s.acmeKnownRegistered = true → ensureRegistered r s = (false, s)) := by
  constructor
  · intro h
    cases r <;> simp [ensureRegistered, h]
  · intro h
    simp [ensureRegistered, h]

/-- C2 amended witness: first call attempts (even though the CA fails),
second call does not. -/
theorem ensureRegistered_once_only_witness :
    (ensureRegistered (.error (goStr "CA unreachable")) { acmeKnownRegistered := false }
      = (true, { acmeKnownRegistered := true }))
    ∧ (ensureRegistered (.error (goStr "still down")) { acmeKnownRegistered := true }
      = (false, { acmeKnownRegistered := true })) :=
  ⟨(ensureRegistered_once_only (.error (goStr "CA unreachable"))
      { acmeKnownRegistered := false }).1 rfl,
   (ensureRegistered_once_only (.error (goStr "still down"))
      { acmeKnownRegistered := true }).2 rfl⟩

/-! ## Observer fan-out (daemon.go `updateObservers` and the timer-fire
branch of `RunForever`) -/

/-- What `updateObservers` can return: the storage fetch error, or the last
observer error remembered across the loop, or success. -/
inductive FanErr where
  | storage (e : StoreErr)
  | observer (e : GoString)
deriving DecidableEq

/-- Environment of the fan-out: the result `storage.FetchCerts()` would
give, and the registered observers, each a function from the certificate
set to `CertsAreUpdated`'s result (`none` = nil error). -/
structure ObsEnv where
  fetchCerts : Except StoreErr (List credhubCert)
  observers : List (List credhubCert → Option GoString)

/-- The `retErr` accumulation of the observer loop: `retErr` is overwritten
by each failing observer and untouched by succeeding ones. -/
def retErrOf (results : List (Option GoString)) : Option FanErr :=
  results.foldl
    (fun acc r => match r with
      | some e => some (.observer e)
      | none => acc)
    none

/-- daemon.go `updateObservers`: fetch the certificates (aborting on fetch
error), then call every observer in registration order, remembering the
last error but continuing.  Returns the list of per-observer results (one
entry per registered observer, in order — the loop has no early exit) and
the function's returned error. -/
def updateObservers (env : ObsEnv) : List (Option GoString) × Option FanErr :=
  match env.fetchCerts with
  | .error e => ([], some (.storage e))
  | .ok certs =>
    let results := env.observers.map (fun ob => ob certs)
    (results, retErrOf results)

/-- The timer-fire branch of `RunForever`: run `updateObservers`; on error
send exactly one `true` into the `updateRequests` channel (modelled as the
queue's pending contents), on success send nothing. -/
def onTimerFire (env : ObsEnv) (queue : List Bool) : List Bool :=
  match (updateObservers env).2 with
  | none => queue
  | some _ => queue ++ [true]

theorem retErrOf_isSome_of_mem (results : List (Option GoString))
    (e : GoString) (h : some e ∈ results) : (retErrOf results).isSome := by
  have key : ∀ (acc : Option FanErr) (l : List (Option GoString)),
      (some e ∈ l ∨ acc.isSome) →
      (l.foldl (fun acc r => match r with
        | some e => some (FanErr.observer e)
        | none => acc) acc).isSome := by
    intro acc l
    induction l generalizing acc with
    | nil =>
      rintro (h1 | h1)
      · simp at h1
      · simpa using h1
    | cons r rest ih =>
      rintro (h1 | h1)
      · rcases List.mem_cons.mp h1 with h2 | h2
        · cases r with
          | none => exact absurd h2.symm (by simp)
          | some v => exact ih _ (Or.inr (by simp))
        · cases r <;> exact ih _ (Or.inl h2)
      · cases r with
        | none => exact ih _ (Or.inr h1)
        | some v => exact ih _ (Or.inr (by simp))
  exact key none results (Or.inl h)

/-- C8: whenever the certificate fetch succeeds, the fan-out invokes every
registered observer in registration order (the result list is exactly the
map of the observers over the fetched set, regardless of failures); if any
observer returned an error the fan-out as a whole reports failure; and the
timer-fire branch then re-enqueues exactly one retry signal onto the
update-request queue (and none on success). -/
theorem fanout_continues_and_retries (env : ObsEnv) (certs : List credhubCert)
    (queue : List Bool) (hf : env.fetchCerts = .ok certs) :
    ((updateObservers env).1 = env.observers.map (fun ob => ob certs))
    ∧ (∀ e, some e ∈ (updateObservers env).1 → ((updateObservers env).2).isSome)
    ∧ (((updateObservers env).2).isSome → onTimerFire env queue = queue ++ [true])
    ∧ ((updateObservers env).2 = none → onTimerFire env queue = queue) := by
  refine ⟨by simp [updateObservers, hf], ?_, ?_, ?_⟩
  · intro e he
    simp only [updateObservers, hf] at he ⊢
    exact retErrOf_isSome_of_mem _ e he
  · intro h
    unfold onTimerFire
    rcases Option.isSome_iff_exists.mp h with ⟨v, hv⟩
    rw [hv]
  · intro h
    unfold onTimerFire
    rw [h]

/-- C8 witness: three observers, the middle one failing — all three are
invoked, the fan-out reports failure, and exactly one retry signal is
enqueued. -/
theorem fanout_continues_and_retries_witness :
    ((updateObservers
        { fetchCerts := .ok []
          observers := [fun _ => none, fun _ => some (goStr "s3 upload failed"),
            fun _ => none] }).1
      = [none, some (goStr "s3 upload failed"), none])
    ∧ (onTimerFire
        { fetchCerts := .ok []
          observers := [fun _ => none, fun _ => some (goStr "s3 upload failed"),
            fun _ => none] } []
      = [true]) := by
  have h := fanout_continues_and_retries
    { fetchCerts := .ok []
      observers := [fun _ => none, fun _ => some (goStr "s3 upload failed"),
        fun _ => none] } [] [] rfl
  exact ⟨h.1, h.2.2.1 (h.2.1 (goStr "s3 upload failed") (by simp [h.1]))⟩

/-! ## Challenge/Response Bridge (server_responder.go)

The bridge is a map from challenge path to payload, modelled as an
association list with map semantics (`SetChallengeValue` replaces,
`ClearChallengeValue` deletes). -/

abbrev Bridge := List (GoString × GoString)

/-- server_responder.go `SetChallengeValue`: map assignment. -/
def SetChallengeValue (b : Bridge) (k v : GoString) : Bridge :=
  (k, v) :: b.filter (fun p => !(p.1 == k))

/-- server_responder.go `ClearChallengeValue`: map deletion. -/
def ClearChallengeValue (b : Bridge) (k : GoString) : Bridge :=
  b.filter (fun p => !(p.1 == k))

/-- The lookup the external challenge HTTP handler performs. -/
def challengeLookup (b : Bridge) (k : GoString) : Option GoString :=
  (b.find? (fun p => p.1 == k)).map (fun p => p.2)

theorem challengeLookup_clear_self (b : Bridge) (k : GoString) :
    challengeLookup (ClearChallengeValue b k) k = none := by
  unfold challengeLookup ClearChallengeValue
  rw [List.find?_eq_none.mpr]
  · rfl
  · intro p hp
    have := (List.mem_filter.mp hp).2
    simpa using this

theorem challengeLookup_clear_none (b : Bridge) (k k' : GoString)
    (h : challengeLookup b k = none) :
    challengeLookup (ClearChallengeValue b k') k = none := by
  unfold challengeLookup at h ⊢
  unfold ClearChallengeValue
  rw [List.find?_eq_none.mpr]
  · rfl
  · intro p hp
    have hmem := (List.mem_filter.mp hp).1
    have hfind : b.find? (fun p => p.1 == k) = none := by
      cases hfe : b.find? (fun p => p.1 == k) with
      | none => rfl
      | some v => rw [hfe] at h; simp at h
    exact List.find?_eq_none.mp hfind p hmem

/-- Go's `defer`red clears, run at function exit. -/
def clearAll (b : Bridge) (ks : List GoString) : Bridge :=
  ks.foldl ClearChallengeValue b

theorem challengeLookup_clearAll_none (b : Bridge) (ks : List GoString)
    (k : GoString) (h : challengeLookup b k = none) :
    challengeLookup (clearAll b ks) k = none := by
  induction ks generalizing b with
  | nil => simpa [clearAll] using h
  | cons k' rest ih =>
    show challengeLookup (clearAll (ClearChallengeValue b k') rest) k = none
    exact ih _ (challengeLookup_clear_none b k k' h)

theorem challengeLookup_clearAll_mem (ks : List GoString) (k : GoString)
    (h : k ∈ ks) : ∀ b : Bridge, challengeLookup (clearAll b ks) k = none := by
  induction ks with
  | nil => exact absurd h (List.not_mem_nil k)
  | cons k' rest ih =>
    intro b
    show challengeLookup (clearAll (ClearChallengeValue b k') rest) k = none
    rcases List.mem_cons.mp h with h1 | h1
    · subst h1
      exact challengeLookup_clearAll_none _ rest k (challengeLookup_clear_self b k)
    · exact ih h1 (ClearChallengeValue b k')

/-! ## ACME automated issuance (packaging acme source, `AutoFetchCert`)

The `golang.org/x/crypto/acme` client is the external CA collaborator,
modelled as an environment of call outcomes.  `GetAuthorization`'s error is
ignored by the source (the code uses `z` without checking `err`), so it is
modelled as total; CSR generation and `CreateOrderCert` are combined in
`createOrderCert`, keyed by the order's finalize URL. -/

structure AcmeChal where
  Typ : GoString
  Token : GoString
deriving DecidableEq

structure AcmeAuthz where
  URI : GoString
  Challenges : List AcmeChal
deriving DecidableEq

inductive OrderStatus where
  | ready
  | pending
  | other (s : GoString)
deriving DecidableEq

structure AcmeOrder where
  Status : OrderStatus
  AuthzURLs : List GoString
  URI : GoString
  FinalizeURL : GoString
deriving DecidableEq

structure AcmeClientEnv where
  authorizeOrder : Except GoString AcmeOrder
  getAuthorization : GoString → AcmeAuthz
  http01ChallengePath : GoString → GoString
  http01ChallengeResponse : GoString → Except GoString GoString
  accept : AcmeChal → Except GoString Unit
  waitAuthorization : GoString → Except GoString Unit
  waitOrder : GoString → Except GoString AcmeOrder
  createOrderCert : GoString → Except GoString (List GoString)

/-- The authorization loop of `AutoFetchCert` over `o.AuthzURLs`.  Threads
the bridge and the list of `defer`red clear keys; any error returns
immediately (the accumulated defers still run at function exit).  For each
pending authorization: find an http-01 challenge (error if none), publish
the token's response value into the bridge (registering the deferred
clear), tell the CA to accept, then await authorization. -/
def autoFetchLoop (env : AcmeClientEnv) :
    List GoString → Bridge → List GoString →
    Bridge × List GoString × Except GoString Unit
  | [], b, defs => (b, defs, .ok ())
  | zurl :: rest, b, defs =>
    let z := env.getAuthorization zurl
    match z.Challenges.find? (fun c => c.Typ == goStr "http-01") with
    | none => (b, defs, .error (goStr "no supported challenge type found"))
    | some chal =>
      let k := env.http01ChallengePath chal.Token
      match env.http01ChallengeResponse chal.Token with
      | .error e => (b, defs, .error e)
      | .ok v =>
        let defs := defs ++ [k]
        let b := SetChallengeValue b k v
        match env.accept chal with
        | .error e => (b, defs, .error e)
        | .ok _ =>
          match env.waitAuthorization z.URI with
          | .error e => (b, defs, .error e)
          | .ok _ => autoFetchLoop env rest b defs

/-- `issueCert`: CSR + `CreateOrderCert` + the empty-chain check. -/
def issueCert (env : AcmeClientEnv) (o : AcmeOrder) :
    Except GoString (List GoString) :=
  match env.createOrderCert o.FinalizeURL with
  | .error e => .error e
  | .ok der =>
    if der.length = 0 then .error (goStr "no certs returned") else .ok der

/-- Result of a run of `AutoFetchCert`: the returned chain or error, the
bridge state after the function (defers included), and the challenge keys
it published during the run. -/
structure FetchOut where
  result : Except GoString (List GoString)
  bridge : Bridge
  published : List GoString

/-- `AutoFetchCert` of the ACME source: authorize an order; if it is
already valid skip to finalization; if pending, satisfy each authorization
via the loop above; then await the order and finalize.  Every published
challenge value is cleared by a `defer` scoped to the whole function, so
the clears run on success and on every error return alike. -/
def AutoFetchCert (env : AcmeClientEnv) (b0 : Bridge) : FetchOut :=
  match env.authorizeOrder with
  | .error e => { result := .error e, bridge := b0, published := [] }
  | .ok o =>
    match o.Status with
    | .ready => { result := issueCert env o, bridge := b0, published := [] }
    | .other _ =>
      { result := .error (goStr "invalid new order status")
        bridge := b0
        published := [] }
    | .pending =>
      match autoFetchLoop env o.AuthzURLs b0 [] with
      | (b, defs, .error e) =>
        { result := .error e, bridge := clearAll b defs, published := defs }
      | (b, defs, .ok _) =>
        match env.waitOrder o.URI with
        | .error e =>
          { result := .error e, bridge := clearAll b defs, published := defs }
        | .ok o2 =>
          { result := issueCert env o2
            bridge := clearAll b defs
            published := defs }

/-- C9: every challenge key `AutoFetchCert` published into the bridge is
absent from the bridge when the function returns — on the success path and
on every error path (accept, authorization wait, order wait, finalization),
because the clears are `defer`red over the whole function body. -/
theorem autoFetchCert_clears_published (env : AcmeClientEnv) (b0 : Bridge)
    (k : GoString) :
    k ∈ (AutoFetchCert env b0).published →
    challengeLookup (AutoFetchCert env b0).bridge k = none := by
  unfold AutoFetchCert
  cases hao : env.authorizeOrder with
  | error e => simp [hao]
  | ok o =>
    cases hst : o.Status with
    | ready => simp [hao, hst]
    | other s => simp [hao, hst]
    | pending =>
      simp only [hao, hst]
      rcases hloop : autoFetchLoop env o.AuthzURLs b0 [] with ⟨b, defs, res⟩
      cases res with
      | error e =>
        intro h
        exact challengeLookup_clearAll_mem defs k h b
      | ok u =>
        cases hw : env.waitOrder o.URI with
        | error e =>
          intro h
          exact challengeLookup_clearAll_mem defs k h b
        | ok o2 =>
          intro h
          exact challengeLookup_clearAll_mem defs k h b

/-- A concrete ACME environment in which the single authorization's
challenge is published and the CA then rejects the accept call — an error
path of `AutoFetchCert`. -/
def sampleAcmeEnv : AcmeClientEnv :=
  { authorizeOrder := .ok
      { Status := .pending
        AuthzURLs := [goStr "az1"]
        URI := goStr "order1"
        FinalizeURL := goStr "fin1" }
    getAuthorization := fun _ =>
      { URI := goStr "az1"
        Challenges := [{ Typ := goStr "http-01", Token := goStr "tok" }] }
    http01ChallengePath := fun t => goStr "/.well-known/acme-challenge/" ++ t
    http01ChallengeResponse := fun t => .ok (t ++ goStr ".keyauth")
    accept := fun _ => .error (goStr "CA validation failed")
    waitAuthorization := fun _ => .ok ()
    waitOrder := fun _ => .ok
      { Status := .ready
        AuthzURLs := []
        URI := goStr "order1"
        FinalizeURL := goStr "fin1" }
    createOrderCert := fun _ => .ok [goStr "leafDER", goStr "intermediateDER"] }

/-- C9 witness: the run publishes exactly one challenge key, fails at the
CA accept step, and the key is gone from the bridge when it returns. -/
theorem autoFetchCert_clears_published_witness :
    ((AutoFetchCert sampleAcmeEnv []).published
      = [goStr "/.well-known/acme-challenge/tok"]) ∧
    ((AutoFetchCert sampleAcmeEnv []).result
      = .error (goStr "CA validation failed")) ∧
    challengeLookup (AutoFetchCert sampleAcmeEnv []).bridge
      (goStr "/.well-known/acme-challenge/tok") = none :=
  ⟨by decide, by rfl,
   autoFetchCert_clears_published sampleAcmeEnv []
     (goStr "/.well-known/acme-challenge/tok") (by decide)⟩

/-! ## Admin UI update handler, case "auto" (web source file)

The handler decodes the hostname from the posted path, loads the record,
and on load error flashes the error WITHOUT breaking out of the case — it
then evaluates `chd.Source` on the nil record.  In this total embedding
that dereference is an explicit outcome constructor. -/

/-- Observable outcome of the "auto" case of the update handler. -/
inductive AutoOutcome where
  | flashCannotFindCert
  | nilSourceDeref
  | flashRenewErr (e : GoString)
  | flashSuccess
deriving DecidableEq

/-- The "auto" case of the admin update handler.  `load` is what
`storage.LoadPath (pathFromHost hostname)` returns and `renew` is
`certRenewer.RenewCertNow`.  Returns the flash messages emitted and the
outcome.  On a load error the handler flashes the error and falls through
to `chd.Source` with `chd = nil`, modelled as `nilSourceDeref`. -/
def updateAuto (formPath : GoString)
    (load : Except GoString credhubCert)
    (renew : GoString → GoString → Option GoString) :
    List GoString × AutoOutcome :=
  let hostname := hostFromPath formPath
  if hostname = [] then
    ([goStr "cannot find cert"], .flashCannotFindCert)
  else
    match load with
    | .error e => ([e], .nilSourceDeref)
    | .ok chd =>
      match renew hostname chd.Source with
      | some e => ([e], .flashRenewErr e)
      | none => ([goStr "cert successfully renewed"], .flashSuccess)

/-- C10: the nil-record access branch of the "auto" case is reachable: for
a well-formed posted path whose record load fails, the handler flashes the
load error and still reaches the `chd.Source` dereference on the nil
record (no early return in the load-error case). -/
theorem updateAuto_load_error_hits_nil_deref :
    updateAuto (pathFromHost (goStr "app.example.gov.au"))
      (.error (goStr "credhub unavailable"))
      (fun _ _ => none)
      = ([goStr "credhub unavailable"], .nilSourceDeref) := by
  decide

end LeResponder
